import Mathlib

/-!
Verification of the span ledger (`TracingProxy`) from
`src/primitives/tracing/src/proxy.rs`.

The Rust code keeps a per-thread stack of open tracing spans:
`create_span` pushes a fresh entry and returns its id, `exit_span id`
pops entries until the id is matched (tolerating mismatches), and the
`Drop` impl drains all remaining entries on thread teardown.

Shallow embedding conventions:

* `u64` values are modelled as `Nat` reduced modulo `2 ^ 64` where the
  source performs arithmetic (`next_id += 1`); comparisons are on the
  reduced representatives, exactly as on the machine values.
* The Rust `Vec<(u64, SpanAndGuard)>` is modelled as a
  `List SpanEntry` stored NEWEST FIRST: the head of the Lean list is
  the tail of the Rust `Vec` (the top of the stack), so `Vec::push`
  is `cons`, `Vec::pop` is head-matching, and `Vec::remove(0)` (the
  oldest entry) is `List.dropLast`.
* The externally observable actions (log warnings via `log::warn!`,
  and the release of a span together with the final value of its
  `is_valid_trace` field as recorded via `span.record`) are collected
  as a list of `Event`s, in the order the source performs the pops /
  emits the warnings.
-/

namespace SubstrateTracing

/-- `2 ^ 64`, the modulus of Rust's `u64`. -/
def U64MOD : Nat := 2 ^ 64

/-- `const MAX_SPANS_LEN: usize = 1000;` (proxy.rs line 28). -/
def MAX_SPANS_LEN : Nat := 1000

/-- `pub const WASM_TRACE_IDENTIFIER` (proxy.rs line 22). -/
def WASM_TRACE_IDENTIFIER : String := "WASM_TRACE"

/-- `pub const WASM_TARGET_KEY` (proxy.rs line 24). -/
def WASM_TARGET_KEY : String := "proxied_wasm_target"

/-- `pub const WASM_NAME_KEY` (proxy.rs line 26). -/
def WASM_NAME_KEY : String := "proxied_wasm_name"

/-- One entry of the ledger: the id stored in the `Vec` paired with the
observable fields of the `tracing` span created by
`info_span!(WASM_TRACE_IDENTIFIER, is_valid_trace = true, proxied_wasm_target, proxied_wasm_name)`.
The `SpanAndGuard` resource pair is opaque to the claims; what is
observable is the span's `is_valid_trace` field and its two
caller-supplied string fields. -/
structure SpanEntry where
  id : Nat
  is_valid_trace : Bool
  proxied_wasm_target : String
  proxied_wasm_name : String
deriving DecidableEq, Repr

/-- `s.span.record("is_valid_trace", &false)`: mutate the span's
`is_valid_trace` field to `false`. -/
def invalidate (e : SpanEntry) : SpanEntry :=
  { e with is_valid_trace := false }

/-- Observable actions of the proxy, in program order:
* `evictWarn` — the `log::warn!("MAX_SPANS_LEN exceeded, ...")` line;
* `mismatchWarn id lastSpanId` — `log::warn!("Span ids not equal! ...")`;
* `notFoundWarn id` — either `log::warn!("Span id not found {}")` or
  `log::warn!("Span id: {} not found")` (the two not-found messages);
* `closed e` — entry `e` was removed from the ledger and its
  `SpanAndGuard` released (guard dropped, then span dropped), with
  `e.is_valid_trace` giving the final value of the span's
  `is_valid_trace` field at release time.  `closed` events are listed
  in the order entries are removed from the `Vec`. -/
inductive Event where
  | evictWarn : Event
  | mismatchWarn (id lastSpanId : Nat) : Event
  | notFoundWarn (id : Nat) : Event
  | closed (e : SpanEntry) : Event
deriving DecidableEq, Repr

/-- `pub struct TracingProxy { next_id: u64, spans: Vec<(u64, SpanAndGuard)> }`
(proxy.rs lines 57-60).  `spans` is stored newest-first (see module
header): its head is the top of the stack / tail of the Rust `Vec`. -/
structure TracingProxy where
  next_id : Nat
  spans : List SpanEntry
deriving DecidableEq, Repr

/-- `TracingProxy::new` (proxy.rs lines 71-77). -/
def TracingProxy.new : TracingProxy :=
  { next_id := 0, spans := [] }

/-- `TracingProxy::create_span` (proxy.rs lines 84-103).  Returns the
new state, the returned id, and the emitted events.  Steps, in source
order: build the span with `is_valid_trace = true` and the two proxied
fields; `self.next_id += 1` (u64 wrap-around); push `(next_id, sg)`;
if the length now exceeds `MAX_SPANS_LEN`, warn, `remove(0)` the
oldest entry and record `is_valid_trace = false` on it before it is
dropped; return `self.next_id`. -/
def create_span (s : TracingProxy) (proxied_wasm_target proxied_wasm_name : String) :
    TracingProxy × Nat × List Event :=
  let next_id := (s.next_id + 1) % U64MOD
  let e : SpanEntry :=
    { id := next_id, is_valid_trace := true,
      proxied_wasm_target := proxied_wasm_target,
      proxied_wasm_name := proxied_wasm_name }
  let spans := e :: s.spans
  if spans.length > MAX_SPANS_LEN then
    ({ next_id := next_id, spans := spans.dropLast }, next_id,
      [Event.evictWarn, Event.closed (invalidate (spans.getLast (List.cons_ne_nil _ _)))])
  else
    ({ next_id := next_id, spans := spans }, next_id, [])

/-- The `while id < last_span_id` loop of `TracingProxy::exit_span`
(proxy.rs lines 109-120), after the first pop has already yielded an
entry with id `last_span_id`.  `spans` is the remaining stack
(newest first).  Each iteration: emit the mismatch warning, pop the
next entry `s`, set `last_span_id := s.id`, and if `id ≠ s.id` record
`is_valid_trace = false` on `s` before it drops; when the stack is
exhausted emit the not-found warning.  Returns the remaining stack and
the events of the loop. -/
def exitLoop (id : Nat) : List SpanEntry → Nat → List SpanEntry × List Event
  | spans, last_span_id =>
    if id < last_span_id then
      match spans with
      | [] => ([], [Event.mismatchWarn id last_span_id, Event.notFoundWarn id])
      | s :: rest =>
        if id ≠ s.id then
          let r := exitLoop id rest s.id
          (r.1, Event.mismatchWarn id last_span_id :: Event.closed (invalidate s) :: r.2)
        else
          (rest, [Event.mismatchWarn id last_span_id, Event.closed s])
    else
      (spans, [])

/-- `TracingProxy::exit_span` (proxy.rs lines 105-127): pop the top
entry; if the stack was empty, warn not-found and return; otherwise
run the mismatch loop starting from the popped entry's id.  The first
popped entry `v` is dropped (closed) without any `record` call, so it
is never invalidated by this function. -/
def exit_span (s : TracingProxy) (id : Nat) : TracingProxy × List Event :=
  match s.spans with
  | [] => (s, [Event.notFoundWarn id])
  | v :: rest =>
    let r := exitLoop id rest v.id
    ({ s with spans := r.1 }, Event.closed v :: r.2)

/-- `impl Drop for TracingProxy` (proxy.rs lines 62-68): pop every
remaining entry (newest first), record `is_valid_trace = false` on
each, and drop it.  The resulting state has an empty ledger. -/
def dropProxy (s : TracingProxy) : TracingProxy × List Event :=
  ({ s with spans := [] }, s.spans.map (fun e => Event.closed (invalidate e)))

/-- A call made by the guest runtime: `create_span target name` or
`exit_span id`. -/
inductive Op where
  | create (target name : String) : Op
  | exit (id : Nat) : Op
deriving DecidableEq, Repr

/-- Result of running a sequence of calls: final state, all emitted
events in order, and the ids returned by the `create` calls in call
order. -/
structure RunResult where
  state : TracingProxy
  events : List Event
  ids : List Nat
deriving DecidableEq, Repr

/-- Run a sequence of `create`/`exit` calls against a proxy state. -/
def run (s : TracingProxy) : List Op → RunResult
  | [] => { state := s, events := [], ids := [] }
  | Op.create t n :: rest =>
    let c := create_span s t n
    let r := run c.1 rest
    { state := r.state, events := c.2.2 ++ r.events, ids := c.2.1 :: r.ids }
  | Op.exit id :: rest =>
    let e := exit_span s id
    let r := run e.1 rest
    { state := r.state, events := e.2 ++ r.events, ids := r.ids }

/-- Number of `create` calls in a sequence of ops. -/
def countCreates : List Op → Nat
  | [] => 0
  | Op.create _ _ :: rest => countCreates rest + 1
  | Op.exit _ :: rest => countCreates rest

/-- `N` rounds of `create` immediately followed by `exit` of the id
that this very `create` call just returned (normal LIFO usage). -/
def lifoRounds (t n : String) : Nat → TracingProxy → TracingProxy × List Event
  | 0, s => (s, [])
  | N + 1, s =>
    let c := create_span s t n
    let e := exit_span c.1 c.2.1
    let r := lifoRounds t n N e.1
    (r.1, c.2.2 ++ e.2 ++ r.2)

/-- The entry built by `create_span` for id `i`: fresh spans carry
`is_valid_trace = true` and the two proxied fields. -/
def mkEntry (t n : String) (i : Nat) : SpanEntry :=
  { id := i, is_valid_trace := true, proxied_wasm_target := t, proxied_wasm_name := n }

/-- `true` exactly on a `closed` event whose entry still has
`is_valid_trace = true` at release (a cleanly closed span). -/
def closedValidEvent : Event → Bool
  | Event.closed e => e.is_valid_trace
  | _ => false

/-- `true` exactly on a `closed` event whose entry has
`is_valid_trace = false` at release (an invalidated span). -/
def closedInvalidEvent : Event → Bool
  | Event.closed e => !e.is_valid_trace
  | _ => false

/-! ### Helper lemmas -/

theorem exit_span_next_id (s : TracingProxy) (id : Nat) :
    (exit_span s id).1.next_id = s.next_id := by
  rcases s with ⟨m, spans⟩
  cases spans <;> simp [exit_span]

theorem exitLoop_of_not_lt (id : Nat) (spans : List SpanEntry) (last : Nat)
    (h : ¬ id < last) : exitLoop id spans last = (spans, []) := by
  cases spans <;> simp [exitLoop, h]

theorem exitLoop_suffix (id : Nat) :
    ∀ (spans : List SpanEntry) (last : Nat), (exitLoop id spans last).1 <:+ spans := by
  intro spans
  induction spans with
  | nil =>
    intro last
    by_cases h1 : id < last <;> simp [exitLoop, h1]
  | cons s rest ih =>
    intro last
    unfold exitLoop
    split
    · dsimp only
      split
      · exact (ih s.id).trans (List.suffix_cons s rest)
      · exact List.suffix_cons s rest
    · exact List.suffix_rfl

theorem exit_span_suffix (s : TracingProxy) (id : Nat) :
    (exit_span s id).1.spans <:+ s.spans := by
  rcases s with ⟨m, spans⟩
  cases spans with
  | nil => simp [exit_span]
  | cons v rest =>
    simpa [exit_span] using (exitLoop_suffix id rest v.id).trans (List.suffix_cons v rest)

/-- When the requested id is at least the id on top of the stack, the
`while id < last_span_id` loop of `exit_span` runs zero iterations:
only the top entry is popped (and dropped un-invalidated), and no
warning at all is logged. -/
theorem exit_span_top_le (m id : Nat) (v : SpanEntry) (rest : List SpanEntry)
    (h : v.id ≤ id) :
    exit_span ⟨m, v :: rest⟩ id = (⟨m, rest⟩, [Event.closed v]) := by
  unfold exit_span
  simp [exitLoop_of_not_lt id rest v.id (Nat.not_lt.mpr h)]

/-- `create_span` on a state that still has room (fewer than
`MAX_SPANS_LEN` open entries): no eviction, no events. -/
theorem create_span_of_room (s : TracingProxy) (t n : String)
    (h : s.spans.length < MAX_SPANS_LEN) :
    create_span s t n =
      ({ next_id := (s.next_id + 1) % U64MOD,
         spans := mkEntry t n ((s.next_id + 1) % U64MOD) :: s.spans },
       (s.next_id + 1) % U64MOD, []) := by
  simp only [create_span]
  rw [if_neg (by simp only [List.length_cons, gt_iff_lt, not_lt]; omega)]
  simp [mkEntry]

theorem getLast_cons_concat (e old : SpanEntry) (A : List SpanEntry) :
    (e :: (A ++ [old])).getLast (List.cons_ne_nil _ _) = old := by
  simp [List.getLast_append]

theorem dropLast_cons_concat (e old : SpanEntry) (A : List SpanEntry) :
    (e :: (A ++ [old])).dropLast = e :: A := by
  rw [← List.cons_append, List.dropLast_concat]

/-- `create_span` on a full ledger (at least `MAX_SPANS_LEN` open
entries, written with the oldest entry `old` split off at the back of
the newest-first list): the new entry is pushed and the oldest entry
is evicted, closed with `is_valid_trace` forced to `false`, after the
eviction warning. -/
theorem create_span_of_full (s : TracingProxy) (t n : String)
    (A : List SpanEntry) (old : SpanEntry)
    (hs : s.spans = A ++ [old]) (hlen : MAX_SPANS_LEN ≤ A.length + 1) :
    create_span s t n =
      ({ next_id := (s.next_id + 1) % U64MOD,
         spans := mkEntry t n ((s.next_id + 1) % U64MOD) :: A },
       (s.next_id + 1) % U64MOD,
       [Event.evictWarn, Event.closed (invalidate old)]) := by
  simp only [create_span, hs]
  rw [if_pos (by simp only [List.length_cons, List.length_append, List.length_singleton, gt_iff_lt]; omega)]
  simp only [dropLast_cons_concat, getLast_cons_concat]
  simp [mkEntry]

theorem run_append (s : TracingProxy) (ops1 ops2 : List Op) :
    run s (ops1 ++ ops2) =
      { state := (run (run s ops1).state ops2).state,
        events := (run s ops1).events ++ (run (run s ops1).state ops2).events,
        ids := (run s ops1).ids ++ (run (run s ops1).state ops2).ids } := by
  induction ops1 generalizing s with
  | nil => simp [run]
  | cons op rest ih =>
    cases op with
    | create t n => simp [run, ih]
    | exit id => simp [run, ih]

/-- Running `k` consecutive `create` calls while there is room for all
of them: no events, the ids `next_id+1, …, next_id+k` are returned in
order, and the corresponding fresh entries pile up (newest first) on
top of the previous stack. -/
theorem run_creates (t n : String) : ∀ (k : Nat) (s : TracingProxy),
    s.spans.length + k ≤ MAX_SPANS_LEN → s.next_id + k < U64MOD →
    run s (List.replicate k (Op.create t n)) =
      { state := { next_id := s.next_id + k,
                   spans := ((List.range' (s.next_id + 1) k).reverse.map (mkEntry t n)) ++ s.spans },
        events := [], ids := List.range' (s.next_id + 1) k } := by
  intro k
  induction k with
  | zero => intro s h1 h2; simp [run]
  | succ k ih =>
    intro s h1 h2
    rw [List.replicate_succ]
    have hroom : s.spans.length < MAX_SPANS_LEN := by omega
    have hmod : (s.next_id + 1) % U64MOD = s.next_id + 1 := Nat.mod_eq_of_lt (by omega)
    simp only [run, create_span_of_room s t n hroom, hmod]
    rw [ih { next_id := s.next_id + 1, spans := mkEntry t n (s.next_id + 1) :: s.spans }
      (by simp only [List.length_cons]; omega) (by simp only []; omega)]
    simp [List.range'_succ, Nat.add_assoc, Nat.add_comm 1 k]

theorem range1000_split (t n : String) :
    (List.range' 1 1000).reverse.map (mkEntry t n) =
      ((List.range' 2 999).reverse.map (mkEntry t n)) ++ [mkEntry t n 1] := by
  rw [show (1000 : Nat) = 999 + 1 from rfl, List.range'_succ]
  simp

theorem range999_split (t n : String) :
    (List.range' 2 999).reverse.map (mkEntry t n) =
      ((List.range' 3 998).reverse.map (mkEntry t n)) ++ [mkEntry t n 2] := by
  rw [show (999 : Nat) = 998 + 1 from rfl, List.range'_succ]
  simp

set_option maxRecDepth 8000 in
/-- `MAX_SPANS_LEN + 1` consecutive creates from the fresh proxy: the
1001st create evicts the oldest entry (id 1), invalidating it. -/
theorem run_creates_max_plus_one (t n : String) :
    run TracingProxy.new (List.replicate (MAX_SPANS_LEN + 1) (Op.create t n)) =
      { state := { next_id := 1001,
                   spans := mkEntry t n 1001 :: ((List.range' 2 999).reverse.map (mkEntry t n)) },
        events := [Event.evictWarn, Event.closed (invalidate (mkEntry t n 1))],
        ids := List.range' 1 1000 ++ [1001] } := by
  rw [List.replicate_succ', run_append]
  rw [run_creates t n MAX_SPANS_LEN TracingProxy.new
    (by simp [TracingProxy.new]) (by norm_num [TracingProxy.new, U64MOD, MAX_SPANS_LEN])]
  simp only [run, TracingProxy.new, MAX_SPANS_LEN, Nat.zero_add, List.append_nil]
  rw [create_span_of_full
    { next_id := 1000, spans := (List.range' 1 1000).reverse.map (mkEntry t n) } t n
    ((List.range' 2 999).reverse.map (mkEntry t n)) (mkEntry t n 1)
    (range1000_split t n)
    (by simp only [List.length_map, List.length_reverse, List.length_range']
        norm_num [MAX_SPANS_LEN])]
  have hm : (1000 + 1) % U64MOD = 1001 := Nat.mod_eq_of_lt (by norm_num [U64MOD])
  simp [hm]

set_option maxRecDepth 8000 in
/-- One further create after `run_creates_max_plus_one`: the 1002nd
create evicts the next-oldest entry (id 2), invalidating it. -/
theorem run_creates_max_plus_two (t n : String) :
    run TracingProxy.new (List.replicate (MAX_SPANS_LEN + 2) (Op.create t n)) =
      { state := { next_id := 1002,
                   spans := mkEntry t n 1002 :: mkEntry t n 1001 ::
                     ((List.range' 3 998).reverse.map (mkEntry t n)) },
        events := [Event.evictWarn, Event.closed (invalidate (mkEntry t n 1)),
                   Event.evictWarn, Event.closed (invalidate (mkEntry t n 2))],
        ids := (List.range' 1 1000 ++ [1001]) ++ [1002] } := by
  rw [show MAX_SPANS_LEN + 2 = (MAX_SPANS_LEN + 1) + 1 from rfl, List.replicate_succ',
    run_append, run_creates_max_plus_one]
  simp only [run, List.append_nil]
  rw [create_span_of_full
    { next_id := 1001, spans := mkEntry t n 1001 :: ((List.range' 2 999).reverse.map (mkEntry t n)) } t n
    (mkEntry t n 1001 :: (List.range' 3 998).reverse.map (mkEntry t n)) (mkEntry t n 2)
    (by show mkEntry t n 1001 :: (List.range' 2 999).reverse.map (mkEntry t n) = _
        rw [range999_split t n, List.cons_append])
    (by simp only [List.length_cons, List.length_map, List.length_reverse, List.length_range']
        norm_num [MAX_SPANS_LEN])]
  have hm : (1001 + 1) % U64MOD = 1002 := Nat.mod_eq_of_lt (by norm_num [U64MOD])
  simp [hm]

/-! ### Claim theorems -/

set_option maxRecDepth 8000 in
/-- C6: starting from an empty ledger, creating `MAX_SPANS_LEN + 1`
spans with no exits leaves exactly `MAX_SPANS_LEN` entries; the evicted
entry is the oldest (id 1) and it is closed with `is_valid_trace` set
to `false`; a further, `MAX_SPANS_LEN + 2`-th create evicts the
next-oldest (id 2) the same way. -/
theorem claim_C6_eviction (t n : String) :
    (run TracingProxy.new (List.replicate (MAX_SPANS_LEN + 1) (Op.create t n))).state.spans.length = MAX_SPANS_LEN ∧
    (run TracingProxy.new (List.replicate (MAX_SPANS_LEN + 1) (Op.create t n))).events =
      [Event.evictWarn, Event.closed { id := 1, is_valid_trace := false, proxied_wasm_target := t, proxied_wasm_name := n }] ∧
    (run TracingProxy.new (List.replicate (MAX_SPANS_LEN + 2) (Op.create t n))).state.spans.length = MAX_SPANS_LEN ∧
    (run TracingProxy.new (List.replicate (MAX_SPANS_LEN + 2) (Op.create t n))).events =
      [Event.evictWarn, Event.closed { id := 1, is_valid_trace := false, proxied_wasm_target := t, proxied_wasm_name := n },
       Event.evictWarn, Event.closed { id := 2, is_valid_trace := false, proxied_wasm_target := t, proxied_wasm_name := n }] := by
  refine ⟨?_, ?_, ?_, ?_⟩
  · rw [run_creates_max_plus_one]; simp [MAX_SPANS_LEN]
  · rw [run_creates_max_plus_one]; simp [invalidate, mkEntry]
  · rw [run_creates_max_plus_two]; simp [MAX_SPANS_LEN]
  · rw [run_creates_max_plus_two]; simp [invalidate, mkEntry]

/-- C1 counterexample: with open spans `1, 2, 3` (in creation order),
`exit 1` does NOT close entry 3 with `is_valid_trace` set to `false`
— entry 3 is the first pop of `exit_span` and the source never calls
`record("is_valid_trace", &false)` on the first popped entry; it is
closed with `is_valid_trace` still `true`. -/
theorem claim_C1_counterexample :
    Event.closed { id := 3, is_valid_trace := false, proxied_wasm_target := "t", proxied_wasm_name := "n" } ∉
      (exit_span (run TracingProxy.new [Op.create "t" "n", Op.create "t" "n", Op.create "t" "n"]).state 1).2 ∧
    Event.closed { id := 3, is_valid_trace := true, proxied_wasm_target := "t", proxied_wasm_name := "n" } ∈
      (exit_span (run TracingProxy.new [Op.create "t" "n", Op.create "t" "n", Op.create "t" "n"]).state 1).2 := by
  decide

/-- C1 (amended): with open spans `1, 2, 3` (in creation order),
`exit 1` pops and closes entry 3 WITHOUT setting `is_valid_trace` to
`false`, emits a mismatch warning, pops and closes entry 2 with
`is_valid_trace` set to `false`, emits another mismatch warning, then
closes entry 1 without forced invalidation, and leaves the ledger
empty. -/
theorem claim_C1_amended (t n : String) :
    exit_span (run TracingProxy.new [Op.create t n, Op.create t n, Op.create t n]).state 1 =
      ({ next_id := 3, spans := [] },
       [Event.closed { id := 3, is_valid_trace := true, proxied_wasm_target := t, proxied_wasm_name := n },
        Event.mismatchWarn 1 3,
        Event.closed { id := 2, is_valid_trace := false, proxied_wasm_target := t, proxied_wasm_name := n },
        Event.mismatchWarn 1 2,
        Event.closed { id := 1, is_valid_trace := true, proxied_wasm_target := t, proxied_wasm_name := n }]) := by
  rfl

/-- C2 counterexample: on the ledger with open ids `1, 2`, the call
`exit 5` (id greater than the top id 2) does NOT pop until the stack
is empty and does NOT end with a not-found warning: it pops exactly
the top entry, closed un-invalidated, emits no warning at all, and
leaves entry 1 open — because the `while id < last_span_id` loop
condition is false from the start when `id > last_span_id`. -/
theorem claim_C2_counterexample :
    (exit_span (run TracingProxy.new [Op.create "t" "n", Op.create "t" "n"]).state 5).2 =
      [Event.closed { id := 2, is_valid_trace := true, proxied_wasm_target := "t", proxied_wasm_name := "n" }] ∧
    (exit_span (run TracingProxy.new [Op.create "t" "n", Op.create "t" "n"]).state 5).1.spans =
      [{ id := 1, is_valid_trace := true, proxied_wasm_target := "t", proxied_wasm_name := "n" }] ∧
    Event.notFoundWarn 5 ∉ (exit_span (run TracingProxy.new [Op.create "t" "n", Op.create "t" "n"]).state 5).2 ∧
    Event.mismatchWarn 5 2 ∉ (exit_span (run TracingProxy.new [Op.create "t" "n", Op.create "t" "n"]).state 5).2 := by
  decide

/-- C2 (amended): for every call to `exit id` where `id` is strictly
greater than the id of the top entry of a non-empty ledger, the
mismatch loop runs zero iterations: exactly the top entry is popped
and closed without forced invalidation, no warning of any kind is
emitted, and the remaining entries are untouched. -/
theorem claim_C2_amended (m id : Nat) (v : SpanEntry) (rest : List SpanEntry)
    (h : v.id < id) :
    exit_span ⟨m, v :: rest⟩ id = (⟨m, rest⟩, [Event.closed v]) :=
  exit_span_top_le m id v rest (Nat.le_of_lt h)

/-- Witness for `claim_C2_amended` at the concrete ledger `[2, 1]`
(newest first) and requested id 5. -/
theorem claim_C2_amended_witness :
    (⟨2, true, "t", "n"⟩ : SpanEntry).id < 5 ∧
    exit_span ⟨2, [⟨2, true, "t", "n"⟩, ⟨1, true, "t", "n"⟩]⟩ 5 =
      (⟨2, [⟨1, true, "t", "n"⟩]⟩, [Event.closed ⟨2, true, "t", "n"⟩]) :=
  ⟨by decide, claim_C2_amended 2 5 ⟨2, true, "t", "n"⟩ [⟨1, true, "t", "n"⟩] (by decide)⟩

/-- C3 counterexample: run `create, create, exit 2` (the first
`exit 2` succeeds and removes entry 2, leaving entry 1 open), then
call `exit 2` a second time.  The second call is NOT equivalent to the
not-found case: it logs no warning whatsoever and silently pops and
closes the still-open entry 1, instead of leaving the ledger as a
not-found no-op would. -/
theorem claim_C3_counterexample :
    (exit_span (run TracingProxy.new [Op.create "t" "n", Op.create "t" "n", Op.exit 2]).state 2).2 =
      [Event.closed { id := 1, is_valid_trace := true, proxied_wasm_target := "t", proxied_wasm_name := "n" }] ∧
    Event.notFoundWarn 2 ∉ (exit_span (run TracingProxy.new [Op.create "t" "n", Op.create "t" "n", Op.exit 2]).state 2).2 ∧
    (run TracingProxy.new [Op.create "t" "n", Op.create "t" "n", Op.exit 2]).state.spans ≠ [] ∧
    (exit_span (run TracingProxy.new [Op.create "t" "n", Op.create "t" "n", Op.exit 2]).state 2).1.spans = [] := by
  decide

/-- C3 (amended): after a first successful `exit id` every remaining
open entry has an id smaller than `id` (see `claim_C10_sorted`).  On
such a state, a second `exit id` is the not-found case only when the
ledger is empty (warning logged, ledger unchanged); when entries
remain, the second call silently pops and closes the top entry,
without any warning and without forced invalidation. -/
theorem claim_C3_amended (m id : Nat) (spans : List SpanEntry)
    (h : ∀ e ∈ spans, e.id < id) :
    (spans = [] → exit_span ⟨m, spans⟩ id = (⟨m, spans⟩, [Event.notFoundWarn id])) ∧
    ∀ v rest, spans = v :: rest → exit_span ⟨m, spans⟩ id = (⟨m, rest⟩, [Event.closed v]) := by
  constructor
  · intro he; subst he; rfl
  · intro v rest he; subst he
    exact exit_span_top_le m id v rest (Nat.le_of_lt (h v (List.mem_cons_self v rest)))

/-- Witness for `claim_C3_amended`: re-exiting id 2 on the ledger
`[1]` left by a successful `exit 2`. -/
theorem claim_C3_amended_witness :
    (∀ e ∈ [(⟨1, true, "t", "n"⟩ : SpanEntry)], e.id < 2) ∧
    exit_span ⟨2, [⟨1, true, "t", "n"⟩]⟩ 2 =
      (⟨2, []⟩, [Event.closed ⟨1, true, "t", "n"⟩]) :=
  ⟨by decide,
   (claim_C3_amended 2 2 [⟨1, true, "t", "n"⟩] (by decide)).2 ⟨1, true, "t", "n"⟩ [] rfl⟩

theorem lifoRounds_from_empty (t n : String) : ∀ (N m : Nat),
    (lifoRounds t n N ⟨m, []⟩).1.spans = [] ∧
    ((lifoRounds t n N ⟨m, []⟩).2.all closedValidEvent) = true := by
  intro N
  induction N with
  | zero => intro m; simp [lifoRounds]
  | succ N ih =>
    intro m
    have hc : create_span ⟨m, []⟩ t n =
        (⟨(m + 1) % U64MOD, [mkEntry t n ((m + 1) % U64MOD)]⟩, (m + 1) % U64MOD, []) :=
      create_span_of_room ⟨m, []⟩ t n (by simp [MAX_SPANS_LEN])
    have hx : exit_span ⟨(m + 1) % U64MOD, [mkEntry t n ((m + 1) % U64MOD)]⟩ ((m + 1) % U64MOD) =
        (⟨(m + 1) % U64MOD, []⟩, [Event.closed (mkEntry t n ((m + 1) % U64MOD))]) :=
      exit_span_top_le _ _ _ _ (Nat.le_refl _)
    simp only [lifoRounds, hc, hx]
    refine ⟨(ih ((m + 1) % U64MOD)).1, ?_⟩
    simp only [List.nil_append, List.cons_append, List.all_cons, (ih ((m + 1) % U64MOD)).2]
    simp [closedValidEvent, mkEntry]

/-- C7: `N` rounds of `create` immediately followed by `exit` of the
id that this `create` returned leave the ledger empty, and every
entry ever released is released with `is_valid_trace` still `true`
(in particular no entry is ever invalidated, and no warning is ever
emitted — every event is a valid closure). -/
theorem claim_C7_lifo (t n : String) (N : Nat) :
    (lifoRounds t n N TracingProxy.new).1.spans = [] ∧
    ((lifoRounds t n N TracingProxy.new).2.all closedValidEvent) = true :=
  lifoRounds_from_empty t n N 0

/-- C8: `exit id` on an empty ledger logs the "span id not found"
warning, leaves the state (including the empty ledger) unchanged, and
produces nothing else — for every id and every value of `next_id`. -/
theorem claim_C8_exit_on_empty (m id : Nat) :
    exit_span ⟨m, []⟩ id = (⟨m, []⟩, [Event.notFoundWarn id]) := rfl

/-- C9: destroying the proxy with `N` entries still open removes every
one of them (the ledger ends empty), releasing each — newest first,
i.e. from the tail of the source `Vec` — with `is_valid_trace` forced
to `false`; exactly `N` closure events are produced, one per entry. -/
theorem claim_C9_teardown (s : TracingProxy) :
    (dropProxy s).1.spans = [] ∧
    (dropProxy s).2 = s.spans.map (fun e => Event.closed (invalidate e)) ∧
    (dropProxy s).2.length = s.spans.length ∧
    ((dropProxy s).2.all closedInvalidEvent) = true := by
  refine ⟨rfl, rfl, by simp [dropProxy], ?_⟩
  simp [dropProxy, List.all_map, closedInvalidEvent, invalidate, Function.comp]

theorem create_span_next_id (s : TracingProxy) (t n : String) :
    (create_span s t n).1.next_id = (s.next_id + 1) % U64MOD ∧
    (create_span s t n).2.1 = (s.next_id + 1) % U64MOD := by
  simp only [create_span]
  split <;> exact ⟨rfl, rfl⟩

/-- The ids returned by the `create` calls of an arbitrary op sequence
are consecutive starting just above the initial `next_id`, as long as
`next_id` does not wrap around `2 ^ 64`; `exit` calls do not disturb
the id sequence. -/
theorem run_ids : ∀ (ops : List Op) (s : TracingProxy),
    s.next_id + countCreates ops < U64MOD →
    (run s ops).ids = List.range' (s.next_id + 1) (countCreates ops) ∧
    (run s ops).state.next_id = s.next_id + countCreates ops := by
  intro ops
  induction ops with
  | nil => intro s h; simp [run, countCreates]
  | cons op rest ih =>
    intro s h
    cases op with
    | create t n =>
      simp only [countCreates] at h ⊢
      have hmod : (s.next_id + 1) % U64MOD = s.next_id + 1 := Nat.mod_eq_of_lt (by omega)
      have hnid := (create_span_next_id s t n).1
      rw [hmod] at hnid
      have hret := (create_span_next_id s t n).2
      rw [hmod] at hret
      have hih := ih (create_span s t n).1 (by rw [hnid]; omega)
      simp only [run, hret, hih.1, hih.2, hnid]
      constructor
      · rw [show s.next_id + 1 + 1 = s.next_id + 1 + 1 from rfl, ← List.range'_succ]
      · omega
    | exit id =>
      simp only [countCreates] at h ⊢
      have hih := ih (exit_span s id).1 (by rw [exit_span_next_id]; omega)
      simp only [run, hih.1, hih.2, exit_span_next_id]
      exact ⟨trivial, trivial⟩

/-- C4: for every sequence of calls on one fresh ledger (creates with
or without interleaved exits, fewer than `2 ^ 64` creates so the u64
counter does not wrap), the ids returned by the `create` calls are
exactly `1, 2, …, k` in order — strictly increasing, starting at 1,
and never reused (each id occurs exactly once, eviction or not). -/
theorem claim_C4_ids (ops : List Op) (h : countCreates ops < U64MOD) :
    (run TracingProxy.new ops).ids = List.range' 1 (countCreates ops) ∧
    List.Pairwise (fun a b => a < b) (run TracingProxy.new ops).ids := by
  have hr := run_ids ops TracingProxy.new (by simpa [TracingProxy.new] using h)
  have h1 : (run TracingProxy.new ops).ids = List.range' 1 (countCreates ops) := by
    simpa [TracingProxy.new] using hr.1
  exact ⟨h1, h1 ▸ List.pairwise_lt_range' 1 (countCreates ops) 1⟩

/-- Witness for `claim_C4_ids` on the call sequence
`create; exit 1; create`. -/
theorem claim_C4_ids_witness :
    countCreates [Op.create "t" "n", Op.exit 1, Op.create "t" "n"] < U64MOD ∧
    (run TracingProxy.new [Op.create "t" "n", Op.exit 1, Op.create "t" "n"]).ids =
      List.range' 1 (countCreates [Op.create "t" "n", Op.exit 1, Op.create "t" "n"]) ∧
    List.Pairwise (fun a b => a < b)
      (run TracingProxy.new [Op.create "t" "n", Op.exit 1, Op.create "t" "n"]).ids :=
  ⟨by decide,
   (claim_C4_ids [Op.create "t" "n", Op.exit 1, Op.create "t" "n"] (by decide)).1,
   (claim_C4_ids [Op.create "t" "n", Op.exit 1, Op.create "t" "n"] (by decide)).2⟩

theorem create_span_len_le (s : TracingProxy) (t n : String)
    (h : s.spans.length ≤ MAX_SPANS_LEN) :
    (create_span s t n).1.spans.length ≤ MAX_SPANS_LEN := by
  simp only [create_span]
  split
  · simp only [List.length_dropLast, List.length_cons]
    omega
  · next hle =>
    simp only [List.length_cons, gt_iff_lt, not_lt] at hle
    simpa using hle

theorem run_len_le : ∀ (ops : List Op) (s : TracingProxy),
    s.spans.length ≤ MAX_SPANS_LEN →
    (run s ops).state.spans.length ≤ MAX_SPANS_LEN := by
  intro ops
  induction ops with
  | nil => intro s h; simpa [run] using h
  | cons op rest ih =>
    intro s h
    cases op with
    | create t n =>
      simp only [run]
      exact ih _ (create_span_len_le s t n h)
    | exit id =>
      simp only [run]
      exact ih _ (le_trans (exit_span_suffix s id).length_le h)

/-- C5: in every state reachable from the empty ledger by any sequence
of `create`/`exit` calls — in particular after every `create` call
returns — the ledger holds at most `MAX_SPANS_LEN` (1000) entries, and
teardown (`dropProxy`) keeps the bound as well (it empties the
ledger). -/
theorem claim_C5_capacity (ops : List Op) :
    (run TracingProxy.new ops).state.spans.length ≤ MAX_SPANS_LEN ∧
    (dropProxy (run TracingProxy.new ops).state).1.spans.length ≤ MAX_SPANS_LEN :=
  ⟨run_len_le ops TracingProxy.new (by simp [TracingProxy.new]),
   by simp [dropProxy]⟩

theorem inv_create (s : TracingProxy) (t n : String)
    (hsort : List.Pairwise (fun a b => b.id < a.id) s.spans)
    (hbound : ∀ e ∈ s.spans, e.id ≤ s.next_id)
    (hmod : s.next_id + 1 < U64MOD) :
    List.Pairwise (fun a b => b.id < a.id) (create_span s t n).1.spans ∧
    ∀ e ∈ (create_span s t n).1.spans, e.id ≤ (create_span s t n).1.next_id := by
  have hmodeq : (s.next_id + 1) % U64MOD = s.next_id + 1 := Nat.mod_eq_of_lt hmod
  have hcons : List.Pairwise (fun a b => b.id < a.id)
      ({ id := s.next_id + 1, is_valid_trace := true,
         proxied_wasm_target := t, proxied_wasm_name := n } :: s.spans) :=
    List.pairwise_cons.mpr ⟨fun b hb => Nat.lt_succ_of_le (hbound b hb), hsort⟩
  have hboundcons : ∀ e ∈ (mkEntry t n (s.next_id + 1) :: s.spans), e.id ≤ s.next_id + 1 := by
    intro e he
    rcases List.mem_cons.mp he with h1 | h2
    · subst h1; exact Nat.le_refl _
    · exact Nat.le_succ_of_le (hbound e h2)
  simp only [create_span, hmodeq]
  split
  · refine ⟨hcons.sublist (List.dropLast_sublist _), ?_⟩
    intro e he
    exact hboundcons e (List.dropLast_subset _ he)
  · exact ⟨hcons, hboundcons⟩

theorem inv_exit (s : TracingProxy) (id : Nat)
    (hsort : List.Pairwise (fun a b => b.id < a.id) s.spans)
    (hbound : ∀ e ∈ s.spans, e.id ≤ s.next_id) :
    List.Pairwise (fun a b => b.id < a.id) (exit_span s id).1.spans ∧
    ∀ e ∈ (exit_span s id).1.spans, e.id ≤ (exit_span s id).1.next_id := by
  refine ⟨hsort.sublist (exit_span_suffix s id).sublist, ?_⟩
  intro e he
  rw [exit_span_next_id]
  exact hbound e ((exit_span_suffix s id).subset he)

theorem run_inv : ∀ (ops : List Op) (s : TracingProxy),
    List.Pairwise (fun a b => b.id < a.id) s.spans →
    (∀ e ∈ s.spans, e.id ≤ s.next_id) →
    s.next_id + countCreates ops < U64MOD →
    List.Pairwise (fun a b => b.id < a.id) (run s ops).state.spans ∧
    ∀ e ∈ (run s ops).state.spans, e.id ≤ (run s ops).state.next_id := by
  intro ops
  induction ops with
  | nil => intro s h1 h2 h3; simpa [run] using ⟨h1, h2⟩
  | cons op rest ih =>
    intro s h1 h2 h3
    cases op with
    | create t n =>
      simp only [countCreates] at h3
      have hmod : s.next_id + 1 < U64MOD := by omega
      have hc := inv_create s t n h1 h2 hmod
      have hnid := (create_span_next_id s t n).1
      rw [Nat.mod_eq_of_lt hmod] at hnid
      simp only [run]
      exact ih (create_span s t n).1 hc.1 hc.2 (by rw [hnid]; omega)
    | exit id =>
      simp only [countCreates] at h3
      have hx := inv_exit s id h1 h2
      simp only [run]
      exact ih (exit_span s id).1 hx.1 hx.2 (by rw [exit_span_next_id]; omega)

/-- C10: in every state reachable from the empty ledger by any
sequence of `create`/`exit` calls (fewer than `2 ^ 64` creates so the
u64 id counter does not wrap), the stored ids are strictly increasing
from the head of the source `Vec` to its tail (the newest-first list
reversed), and every stored id is at most `next_id`. -/
theorem claim_C10_sorted (ops : List Op) (h : countCreates ops < U64MOD) :
    List.Pairwise (fun a b => a.id < b.id) (run TracingProxy.new ops).state.spans.reverse ∧
    ∀ e ∈ (run TracingProxy.new ops).state.spans,
      e.id ≤ (run TracingProxy.new ops).state.next_id := by
  have hr := run_inv ops TracingProxy.new (by simp [TracingProxy.new])
    (by simp [TracingProxy.new]) (by simpa [TracingProxy.new] using h)
  exact ⟨List.pairwise_reverse.mpr hr.1, hr.2⟩

/-- Witness for `claim_C10_sorted` on the call sequence
`create; create; exit 2`, whose final ledger is `[1]`. -/
theorem claim_C10_sorted_witness :
    countCreates [Op.create "t" "n", Op.create "t" "n", Op.exit 2] < U64MOD ∧
    List.Pairwise (fun a b => a.id < b.id)
      (run TracingProxy.new [Op.create "t" "n", Op.create "t" "n", Op.exit 2]).state.spans.reverse ∧
    ∀ e ∈ (run TracingProxy.new [Op.create "t" "n", Op.create "t" "n", Op.exit 2]).state.spans,
      e.id ≤ (run TracingProxy.new [Op.create "t" "n", Op.create "t" "n", Op.exit 2]).state.next_id :=
  ⟨by decide,
   (claim_C10_sorted [Op.create "t" "n", Op.create "t" "n", Op.exit 2] (by decide)).1,
   (claim_C10_sorted [Op.create "t" "n", Op.create "t" "n", Op.exit 2] (by decide)).2⟩

end SubstrateTracing
